import Mathlib

/-!
Verification of the container-query recursive-descent parser
(crates/biome_css_parser/src/syntax/at_rule/container.rs) and of the
UseParseIntRadix lint rule
(crates/biome_js_analyze/src/lint/nursery/use_parse_int_radix.rs).

The parser is embedded shallowly: the cursor is the list of tokens not yet
consumed plus a diagnostic counter, productions are fuel-indexed total
functions returning either a parse outcome (Absent or Present tree) with the
new cursor, a panic (a violated bump precondition, mirroring the assertion in
the Rust bump), or an out-of-fuel marker.  Out of fuel is distinguished from
every real outcome, so theorems quantified over all fuel describe exactly the
terminating executions of the source.

External collaborators that are not part of the excerpt (the identifier,
declaration and query-feature sub-parsers, and the block-recovery primitive)
are modelled from the specification; each such definition carries a doc
comment saying so.
-/

namespace Biome

/-- Token kinds of the container-query token stream (a closed enumeration in
the source; EOF is the kind reported by the cursor past the last token). -/
inductive TokKind where
  | CONTAINER_KW | NOT_KW | AND_KW | OR_KW | STYLE_KW
  | IDENT | NUMBER | COLON | L_PAREN | R_PAREN | L_CURLY | R_CURLY | DELIM | EOF
deriving DecidableEq

/-- A token: immutable (kind, exact source text) pair.  The text carries the
trivia needed to reproduce the source byte-for-byte. -/
structure Token where
  kind : TokKind
  text : String
deriving DecidableEq

/-- Node kinds assigned to completed tree nodes. -/
inductive NodeKind where
  | CSS_CONTAINER_AT_RULE
  | CSS_BOGUS_AT_RULE
  | CSS_CONTAINER_AND_QUERY
  | CSS_CONTAINER_OR_QUERY
  | CSS_CONTAINER_NOT_QUERY
  | CSS_CONTAINER_QUERY_IN_PARENS
  | CSS_CONTAINER_SIZE_FEATURE_IN_PARENS
  | CSS_CONTAINER_STYLE_QUERY_IN_PARENS
  | CSS_CONTAINER_STYLE_AND_QUERY
  | CSS_CONTAINER_STYLE_OR_QUERY
  | CSS_CONTAINER_STYLE_NOT_QUERY
  | CSS_CONTAINER_STYLE_IN_PARENS
  | CSS_IDENTIFIER
  | CSS_DECLARATION
  | CSS_QUERY_FEATURE
  | CSS_RULE_LIST_BLOCK
deriving DecidableEq

/-- Concrete syntax tree: leaf tokens and kinded nodes.  A completed marker of
the event-based builder corresponds to a node whose children are everything
produced between start and complete, in order. -/
inductive Tree where
  | leaf (t : Token)
  | node (kind : NodeKind) (children : List Tree)

mutual
/-- Leaf tokens of a tree, in tree order. -/
def treeToks : Tree → List Token
  | .leaf t => [t]
  | .node _ cs => treesToks cs

/-- Leaf tokens of a forest, in order. -/
def treesToks : List Tree → List Token
  | [] => []
  | t :: ts => treeToks t ++ treesToks ts
end

/-- The parser state consumed by every production: the tokens not yet
consumed (the cursor as a suffix of the input) and the number of diagnostics
recorded so far. -/
structure CssParser where
  rest : List Token
  diags : Nat
deriving DecidableEq

/-- Abnormal terminations of the embedding: a violated bump precondition
(the Rust assertion, i.e. a panic), or exhaustion of the fuel that makes the
mutual recursion structural.  Out of fuel never coincides with a real
outcome of the source. -/
inductive PFail where
  | panicked
  | outOfFuel
deriving DecidableEq

/-- Parse outcome of one production: Absent (no match, cursor untouched) or
Present with the completed node. -/
inductive ParsedSyntax where
  | absent
  | present (t : Tree)

/-- Result of running a production: outcome and new state, or failure. -/
abbrev PResult := Except PFail (ParsedSyntax × CssParser)

/-- Children contributed to the enclosing node by an outcome that the caller
keeps with ok(): a Present node is appended, an Absent one contributes
nothing. -/
def childrenOf : ParsedSyntax → List Tree
  | .absent => []
  | .present t => [t]

/-- Leaf tokens of an outcome. -/
def resToks : ParsedSyntax → List Token
  | .absent => []
  | .present t => treeToks t

/-- Exact source text of a token list, concatenated in order. -/
def listText : List Token → String
  | [] => ""
  | t :: ts => t.text ++ listText ts

/-- Kind of the current token; EOF past the end. -/
def curKind (p : CssParser) : TokKind :=
  match p.rest with
  | [] => .EOF
  | t :: _ => t.kind

/-- Kind of the n-th lookahead token; EOF past the end. -/
def nthKind (p : CssParser) (n : Nat) : TokKind :=
  match p.rest[n]? with
  | some t => t.kind
  | none => .EOF

/-- p.at(kind): the current token has this kind. -/
def isAt (p : CssParser) (k : TokKind) : Bool :=
  curKind p == k

/-- p.nth_at(n, kind): lookahead without consuming. -/
def nthAt (p : CssParser) (n : Nat) (k : TokKind) : Bool :=
  nthKind p n == k

/-- p.bump(kind): consumes exactly one token; the caller guarantees at(kind)
first, otherwise the source assertion fires — modelled as the panicked
failure. -/
def bumpTok (k : TokKind) (p : CssParser) : Except PFail (Token × CssParser) :=
  match p.rest with
  | t :: ts => if t.kind = k then .ok (t, { rest := ts, diags := p.diags }) else .error .panicked
  | [] => .error .panicked

/-- p.expect(kind): like bump on a match; on a mismatch records a diagnostic
and continues without consuming (a soft error, never a panic). -/
def expectTok (k : TokKind) (p : CssParser) : Option Token × CssParser :=
  match p.rest with
  | t :: ts =>
    if t.kind = k then (some t, { rest := ts, diags := p.diags })
    else (none, { rest := p.rest, diags := p.diags + 1 })
  | [] => (none, { rest := p.rest, diags := p.diags + 1 })

/-- The leaf contributed by an expect: present on a match, nothing on a
mismatch. -/
def optLeaf : Option Token → List Tree
  | some t => [Tree.leaf t]
  | none => []

/-- Modelled from the spec: the token kinds that can stand where the generic
grammar accepts an identifier.  In the stylesheet grammar the combinator and
query keywords are contextual, so they are identifier-like; this is what lets
a style query treat a stray not as a declaration name. -/
def identLike : TokKind → Bool
  | .IDENT | .CONTAINER_KW | .NOT_KW | .AND_KW | .OR_KW | .STYLE_KW => true
  | _ => false

/-- Modelled from the spec: is_at_identifier of the shared syntax module
(missing from the excerpt) — the cursor is at an identifier-like token. -/
def is_at_identifier (p : CssParser) : Bool :=
  identLike (curKind p)

/-- Greedily consume tokens matching a predicate, returning them as leaves
together with the remaining suffix. -/
def consumeWhile (f : TokKind → Bool) : List Token → List Tree × List Token
  | [] => ([], [])
  | t :: ts =>
    if f t.kind then
      let (cs, r) := consumeWhile f ts
      (Tree.leaf t :: cs, r)
    else ([], t :: ts)

/-- Token kinds accepted inside a declaration or feature value. -/
def declValueKind (k : TokKind) : Bool :=
  k == .COLON || k == .IDENT || k == .NUMBER || k == .DELIM

/-- Modelled from the spec: parse_regular_identifier of the shared syntax
module (missing from the excerpt).  Consumes one plain identifier token into
a CssIdentifier node; Absent on anything else, keywords included — the
optional container name never swallows the not keyword of a condition. -/
def parse_regular_identifier (p : CssParser) : ParsedSyntax × CssParser :=
  match p.rest with
  | t :: ts =>
    if t.kind = .IDENT then
      (.present (.node .CSS_IDENTIFIER [.leaf t]), { rest := ts, diags := p.diags })
    else (.absent, p)
  | [] => (.absent, p)

/-- Modelled from the spec: the generic declaration sub-parser (external
grammar, treated as an opaque Present/Absent sub-parser that never panics).
Consumes an identifier-like property name and a run of value tokens. -/
def parse_declaration (p : CssParser) : ParsedSyntax × CssParser :=
  match p.rest with
  | t :: ts =>
    if identLike t.kind then
      let (vs, r) := consumeWhile declValueKind ts
      (.present (.node .CSS_DECLARATION (.leaf t :: vs)), { rest := r, diags := p.diags })
    else (.absent, p)
  | [] => (.absent, p)

/-- Modelled from the spec: the query-feature sub-parser behind a size
feature (external grammar, opaque Present/Absent sub-parser that never
panics).  Consumes a feature name and a run of value tokens. -/
def parse_any_query_feature (p : CssParser) : ParsedSyntax × CssParser :=
  match p.rest with
  | t :: ts =>
    if identLike t.kind then
      let (vs, r) := consumeWhile declValueKind ts
      (.present (.node .CSS_QUERY_FEATURE (.leaf t :: vs)), { rest := r, diags := p.diags })
    else (.absent, p)
  | [] => (.absent, p)

/-- Consume tokens up to and including the brace closing the current block,
tracking nesting depth; used by the modelled block parser. -/
def skipToCloseCurly : List Token → Nat → List Tree × List Token
  | [], _ => ([], [])
  | t :: ts, depth =>
    match t.kind with
    | .R_CURLY =>
      if depth = 0 then ([Tree.leaf t], ts)
      else
        let (cs, r) := skipToCloseCurly ts (depth - 1)
        (Tree.leaf t :: cs, r)
    | .L_CURLY =>
      let (cs, r) := skipToCloseCurly ts (depth + 1)
      (Tree.leaf t :: cs, r)
    | _ =>
      let (cs, r) := skipToCloseCurly ts depth
      (Tree.leaf t :: cs, r)

/-- Modelled from the spec: parse_or_recover_rule_list_block (missing from
the excerpt).  At an opening brace it consumes the balanced block and
succeeds; otherwise it records one diagnostic, consumes nothing, and reports
the failure that the caller turns into a Bogus tag, so that a following
top-level construct parses independently. -/
def parse_or_recover_rule_list_block (p : CssParser) : Except Unit Tree × CssParser :=
  match p.rest with
  | t :: ts =>
    if t.kind = .L_CURLY then
      let (cs, r) := skipToCloseCurly ts 0
      (.ok (.node .CSS_RULE_LIST_BLOCK (.leaf t :: cs)), { rest := r, diags := p.diags })
    else (.error (), { rest := p.rest, diags := p.diags + 1 })
  | [] => (.error (), { rest := p.rest, diags := p.diags + 1 })

/-- is_at_container_at_rule: at the container keyword. -/
def is_at_container_at_rule (p : CssParser) : Bool :=
  isAt p .CONTAINER_KW

/-- is_at_container_not_query: at the not keyword (one-token dispatch). -/
def is_at_container_not_query (p : CssParser) : Bool :=
  isAt p .NOT_KW

/-- is_at_container_query_in_parens: at an opening paren whose next token is
not or another opening paren (two-token lookahead). -/
def is_at_container_query_in_parens (p : CssParser) : Bool :=
  isAt p .L_PAREN && (nthAt p 1 .NOT_KW || nthAt p 1 .L_PAREN)

/-- is_at_container_size_feature_in_parens: at an opening paren. -/
def is_at_container_size_feature_in_parens (p : CssParser) : Bool :=
  isAt p .L_PAREN

/-- is_at_container_style_query_in_parens: at the style keyword. -/
def is_at_container_style_query_in_parens (p : CssParser) : Bool :=
  isAt p .STYLE_KW

/-- is_at_container_style_not_query: at not followed by an opening paren
(two-token dispatch, unlike the container-level not query). -/
def is_at_container_style_not_query (p : CssParser) : Bool :=
  isAt p .NOT_KW && nthAt p 1 .L_PAREN

mutual
/-- parse_container_at_rule: container IDENT? condition block; a failed block
parse turns the whole node into CSS_BOGUS_AT_RULE, keeping every consumed
child. -/
def parse_container_at_rule : Nat → CssParser → PResult
  | 0, _ => .error .outOfFuel
  | fuel + 1, p =>
    if is_at_container_at_rule p then
      match bumpTok .CONTAINER_KW p with
      | .error e => .error e
      | .ok (t0, p1) =>
        let (idRes, p2) := parse_regular_identifier p1
        match parse_any_container_query fuel p2 with
        | .error e => .error e
        | .ok (qRes, p3) =>
          let kids := Tree.leaf t0 :: (childrenOf idRes ++ childrenOf qRes)
          match parse_or_recover_rule_list_block p3 with
          | (.error _, p4) => .ok (.present (.node .CSS_BOGUS_AT_RULE kids), p4)
          | (.ok blk, p4) => .ok (.present (.node .CSS_CONTAINER_AT_RULE (kids ++ [blk])), p4)
    else .ok (.absent, p)

/-- parse_any_container_query: a not query, or a query-in-parens optionally
folded with a following and/or chain by preceding the completed node. -/
def parse_any_container_query : Nat → CssParser → PResult
  | 0, _ => .error .outOfFuel
  | fuel + 1, p =>
    if is_at_container_not_query p then parse_container_not_query fuel p
    else
      match parse_any_container_query_in_parens fuel p with
      | .error e => .error e
      | .ok (qip, p1) =>
        match curKind p1 with
        | .AND_KW =>
          match bumpTok .AND_KW p1 with
          | .error e => .error e
          | .ok (ta, p2) =>
            match parse_container_and_query fuel p2 with
            | .error e => .error e
            | .ok (rhs, p3) =>
              .ok (.present (.node .CSS_CONTAINER_AND_QUERY
                (childrenOf qip ++ (Tree.leaf ta :: childrenOf rhs))), p3)
        | .OR_KW =>
          match bumpTok .OR_KW p1 with
          | .error e => .error e
          | .ok (to_, p2) =>
            match parse_container_or_query fuel p2 with
            | .error e => .error e
            | .ok (rhs, p3) =>
              .ok (.present (.node .CSS_CONTAINER_OR_QUERY
                (childrenOf qip ++ (Tree.leaf to_ :: childrenOf rhs))), p3)
        | _ => .ok (qip, p1)

/-- parse_container_and_query: a query-in-parens, continued while the cursor
is at and. -/
def parse_container_and_query : Nat → CssParser → PResult
  | 0, _ => .error .outOfFuel
  | fuel + 1, p =>
    match parse_any_container_query_in_parens fuel p with
    | .error e => .error e
    | .ok (qip, p1) =>
      if isAt p1 .AND_KW then
        match bumpTok .AND_KW p1 with
        | .error e => .error e
        | .ok (ta, p2) =>
          match parse_container_and_query fuel p2 with
          | .error e => .error e
          | .ok (rhs, p3) =>
            .ok (.present (.node .CSS_CONTAINER_AND_QUERY
              (childrenOf qip ++ (Tree.leaf ta :: childrenOf rhs))), p3)
      else .ok (qip, p1)

/-- parse_container_or_query: a query-in-parens, continued on or; the
right-hand side is parsed by parse_container_and_query, exactly as in the
source. -/
def parse_container_or_query : Nat → CssParser → PResult
  | 0, _ => .error .outOfFuel
  | fuel + 1, p =>
    match parse_any_container_query_in_parens fuel p with
    | .error e => .error e
    | .ok (qip, p1) =>
      if isAt p1 .OR_KW then
        match bumpTok .OR_KW p1 with
        | .error e => .error e
        | .ok (to_, p2) =>
          match parse_container_and_query fuel p2 with
          | .error e => .error e
          | .ok (rhs, p3) =>
            .ok (.present (.node .CSS_CONTAINER_OR_QUERY
              (childrenOf qip ++ (Tree.leaf to_ :: childrenOf rhs))), p3)
      else .ok (qip, p1)

/-- parse_container_not_query: not followed by a query-in-parens. -/
def parse_container_not_query : Nat → CssParser → PResult
  | 0, _ => .error .outOfFuel
  | fuel + 1, p =>
    if is_at_container_not_query p then
      match bumpTok .NOT_KW p with
      | .error e => .error e
      | .ok (tn, p1) =>
        match parse_any_container_query_in_parens fuel p1 with
        | .error e => .error e
        | .ok (q, p2) =>
          .ok (.present (.node .CSS_CONTAINER_NOT_QUERY (Tree.leaf tn :: childrenOf q)), p2)
    else .ok (.absent, p)

/-- parse_any_container_query_in_parens: dispatch between the grouping, the
style query and the size feature readings of a parenthesis. -/
def parse_any_container_query_in_parens : Nat → CssParser → PResult
  | 0, _ => .error .outOfFuel
  | fuel + 1, p =>
    if is_at_container_query_in_parens p then parse_container_query_in_parens fuel p
    else if is_at_container_style_query_in_parens p then parse_container_style_query_in_parens fuel p
    else if is_at_container_size_feature_in_parens p then parse_container_size_feature_in_parens fuel p
    else .ok (.absent, p)

/-- parse_container_query_in_parens: a parenthesised nested condition.  The
closing paren is consumed by an unconditional bump, whose precondition the
caller does not establish — the panic site of claim C2. -/
def parse_container_query_in_parens : Nat → CssParser → PResult
  | 0, _ => .error .outOfFuel
  | fuel + 1, p =>
    if is_at_container_query_in_parens p then
      match bumpTok .L_PAREN p with
      | .error e => .error e
      | .ok (lp, p1) =>
        match parse_any_container_query fuel p1 with
        | .error e => .error e
        | .ok (q, p2) =>
          match bumpTok .R_PAREN p2 with
          | .error e => .error e
          | .ok (rp, p3) =>
            .ok (.present (.node .CSS_CONTAINER_QUERY_IN_PARENS
              (Tree.leaf lp :: (childrenOf q ++ [Tree.leaf rp]))), p3)
    else .ok (.absent, p)

/-- parse_container_size_feature_in_parens: a parenthesised size feature; the
closing paren is expected, not bumped. -/
def parse_container_size_feature_in_parens : Nat → CssParser → PResult
  | 0, _ => .error .outOfFuel
  | _fuel + 1, p =>
    if is_at_container_size_feature_in_parens p then
      match bumpTok .L_PAREN p with
      | .error e => .error e
      | .ok (lp, p1) =>
        let (feat, p2) := parse_any_query_feature p1
        let (rp, p3) := expectTok .R_PAREN p2
        .ok (.present (.node .CSS_CONTAINER_SIZE_FEATURE_IN_PARENS
          (Tree.leaf lp :: (childrenOf feat ++ optLeaf rp))), p3)
    else .ok (.absent, p)

/-- parse_container_style_query_in_parens: style ( style-query ). -/
def parse_container_style_query_in_parens : Nat → CssParser → PResult
  | 0, _ => .error .outOfFuel
  | fuel + 1, p =>
    if is_at_container_style_query_in_parens p then
      match bumpTok .STYLE_KW p with
      | .error e => .error e
      | .ok (st, p1) =>
        let (lp, p2) := expectTok .L_PAREN p1
        match parse_any_container_style_query fuel p2 with
        | .error e => .error e
        | .ok (q, p3) =>
          let (rp, p4) := expectTok .R_PAREN p3
          .ok (.present (.node .CSS_CONTAINER_STYLE_QUERY_IN_PARENS
            (Tree.leaf st :: (optLeaf lp ++ (childrenOf q ++ optLeaf rp)))), p4)
    else .ok (.absent, p)

/-- parse_any_container_style_query: a style not query, else a declaration
when at an identifier, else a combinable chain. -/
def parse_any_container_style_query : Nat → CssParser → PResult
  | 0, _ => .error .outOfFuel
  | fuel + 1, p =>
    if is_at_container_style_not_query p then parse_container_style_not_query fuel p
    else if is_at_identifier p then .ok (parse_declaration p)
    else parse_any_container_style_combinable_query fuel p

/-- parse_any_container_style_combinable_query: a style-in-parens, folded
with a following and/or chain through a direct recursive call. -/
def parse_any_container_style_combinable_query : Nat → CssParser → PResult
  | 0, _ => .error .outOfFuel
  | fuel + 1, p =>
    match parse_container_style_in_parens fuel p with
    | .error e => .error e
    | .ok (sip, p1) =>
      match curKind p1 with
      | .AND_KW =>
        match bumpTok .AND_KW p1 with
        | .error e => .error e
        | .ok (ta, p2) =>
          match parse_any_container_style_combinable_query fuel p2 with
          | .error e => .error e
          | .ok (rhs, p3) =>
            .ok (.present (.node .CSS_CONTAINER_STYLE_AND_QUERY
              (childrenOf sip ++ (Tree.leaf ta :: childrenOf rhs))), p3)
      | .OR_KW =>
        match bumpTok .OR_KW p1 with
        | .error e => .error e
        | .ok (to_, p2) =>
          match parse_any_container_style_combinable_query fuel p2 with
          | .error e => .error e
          | .ok (rhs, p3) =>
            .ok (.present (.node .CSS_CONTAINER_STYLE_OR_QUERY
              (childrenOf sip ++ (Tree.leaf to_ :: childrenOf rhs))), p3)
      | _ => .ok (sip, p1)

/-- parse_container_style_not_query: not followed by a style-in-parens;
guarded by the two-token lookahead. -/
def parse_container_style_not_query : Nat → CssParser → PResult
  | 0, _ => .error .outOfFuel
  | fuel + 1, p =>
    if is_at_container_style_not_query p then
      match bumpTok .NOT_KW p with
      | .error e => .error e
      | .ok (tn, p1) =>
        match parse_container_style_in_parens fuel p1 with
        | .error e => .error e
        | .ok (sip, p2) =>
          .ok (.present (.node .CSS_CONTAINER_STYLE_NOT_QUERY (Tree.leaf tn :: childrenOf sip)), p2)
    else .ok (.absent, p)

/-- parse_container_style_in_parens: ( style-query ), closing paren
expected. -/
def parse_container_style_in_parens : Nat → CssParser → PResult
  | 0, _ => .error .outOfFuel
  | fuel + 1, p =>
    if isAt p .L_PAREN then
      match bumpTok .L_PAREN p with
      | .error e => .error e
      | .ok (lp, p1) =>
        match parse_any_container_style_query fuel p1 with
        | .error e => .error e
        | .ok (q, p2) =>
          let (rp, p3) := expectTok .R_PAREN p2
          .ok (.present (.node .CSS_CONTAINER_STYLE_IN_PARENS
            (Tree.leaf lp :: (childrenOf q ++ optLeaf rp))), p3)
    else .ok (.absent, p)
end

/-- One tag per production of the container-query grammar. -/
inductive PTag where
  | atRule | anyQuery | andQuery | orQuery | notQuery
  | anyQueryInParens | queryInParens | sizeFeatureInParens | styleQueryInParens
  | anyStyleQuery | styleCombinableQuery | styleNotQuery | styleInParens
deriving DecidableEq

/-- Run the production named by a tag. -/
def runProd : PTag → Nat → CssParser → PResult
  | .atRule => parse_container_at_rule
  | .anyQuery => parse_any_container_query
  | .andQuery => parse_container_and_query
  | .orQuery => parse_container_or_query
  | .notQuery => parse_container_not_query
  | .anyQueryInParens => parse_any_container_query_in_parens
  | .queryInParens => parse_container_query_in_parens
  | .sizeFeatureInParens => parse_container_size_feature_in_parens
  | .styleQueryInParens => parse_container_style_query_in_parens
  | .anyStyleQuery => parse_any_container_style_query
  | .styleCombinableQuery => parse_any_container_style_combinable_query
  | .styleNotQuery => parse_container_style_not_query
  | .styleInParens => parse_container_style_in_parens

/-- The node kinds a production can assign to the root of a Present result. -/
def allowedKinds : PTag → List NodeKind
  | .atRule => [.CSS_CONTAINER_AT_RULE, .CSS_BOGUS_AT_RULE]
  | .anyQuery => [.CSS_CONTAINER_NOT_QUERY, .CSS_CONTAINER_AND_QUERY, .CSS_CONTAINER_OR_QUERY,
      .CSS_CONTAINER_QUERY_IN_PARENS, .CSS_CONTAINER_STYLE_QUERY_IN_PARENS,
      .CSS_CONTAINER_SIZE_FEATURE_IN_PARENS]
  | .andQuery => [.CSS_CONTAINER_AND_QUERY, .CSS_CONTAINER_QUERY_IN_PARENS,
      .CSS_CONTAINER_STYLE_QUERY_IN_PARENS, .CSS_CONTAINER_SIZE_FEATURE_IN_PARENS]
  | .orQuery => [.CSS_CONTAINER_OR_QUERY, .CSS_CONTAINER_QUERY_IN_PARENS,
      .CSS_CONTAINER_STYLE_QUERY_IN_PARENS, .CSS_CONTAINER_SIZE_FEATURE_IN_PARENS]
  | .notQuery => [.CSS_CONTAINER_NOT_QUERY]
  | .anyQueryInParens => [.CSS_CONTAINER_QUERY_IN_PARENS, .CSS_CONTAINER_STYLE_QUERY_IN_PARENS,
      .CSS_CONTAINER_SIZE_FEATURE_IN_PARENS]
  | .queryInParens => [.CSS_CONTAINER_QUERY_IN_PARENS]
  | .sizeFeatureInParens => [.CSS_CONTAINER_SIZE_FEATURE_IN_PARENS]
  | .styleQueryInParens => [.CSS_CONTAINER_STYLE_QUERY_IN_PARENS]
  | .anyStyleQuery => [.CSS_CONTAINER_STYLE_NOT_QUERY, .CSS_DECLARATION,
      .CSS_CONTAINER_STYLE_AND_QUERY, .CSS_CONTAINER_STYLE_OR_QUERY,
      .CSS_CONTAINER_STYLE_IN_PARENS]
  | .styleCombinableQuery => [.CSS_CONTAINER_STYLE_AND_QUERY, .CSS_CONTAINER_STYLE_OR_QUERY,
      .CSS_CONTAINER_STYLE_IN_PARENS]
  | .styleNotQuery => [.CSS_CONTAINER_STYLE_NOT_QUERY]
  | .styleInParens => [.CSS_CONTAINER_STYLE_IN_PARENS]

/-- Kind at the root of a tree; none at a leaf. -/
def Tree.rootKind : Tree → Option NodeKind
  | .leaf _ => none
  | .node k _ => some k

/-- The contract every production obeys: on a normal return the consumed
tokens are exactly the leaves of the outcome, in order (losslessness); an
Absent return leaves the state untouched; a Present root carries one of the
kinds the production may assign. -/
def prodContract (ks : List NodeKind) (p : CssParser) (r : PResult) : Prop :=
  ∀ res p', r = Except.ok (res, p') →
    (p.rest = resToks res ++ p'.rest) ∧ (res = .absent → p' = p) ∧
    (∀ t, res = .present t → ∃ k, t.rootKind = some k ∧ k ∈ ks)

/-- n-th child of a node. -/
def Tree.child (t : Tree) (n : Nat) : Option Tree :=
  match t with
  | .leaf _ => none
  | .node _ cs => cs[n]?

/-- Root kinds of the children of a node (none marks a leaf child). -/
def Tree.childKinds : Tree → List (Option NodeKind)
  | .leaf _ => []
  | .node _ cs => cs.map Tree.rootKind

/-- Root kind of the tree produced by a run, when it produced one. -/
def resultRoot : PResult → Option NodeKind
  | .ok (.present t, _) => t.rootKind
  | _ => none

/-- The tree produced by a run, when it produced one. -/
def resultTree : PResult → Option Tree
  | .ok (.present t, _) => some t
  | _ => none

/-- Diagnostics counter after a normal run. -/
def resultDiags : PResult → Option Nat
  | .ok (_, p) => some p.diags
  | .error _ => none

/-- Unconsumed suffix after a normal run. -/
def resultRest : PResult → Option (List Token)
  | .ok (_, p) => some p.rest
  | .error _ => none

/-- Exact source text of the leaves of the outcome of a normal run. -/
def resultText : PResult → Option String
  | .ok (res, _) => some (listText (resToks res))
  | .error _ => none

/-- Shorthand for a token literal. -/
def tok (k : TokKind) (s : String) : Token := ⟨k, s⟩

/-- Leaf tokens contributed by an optional expect result. -/
def optToks : Option Token → List Token
  | some t => [t]
  | none => []

/-- Shape of a tree with kinds and token identities erased; used to compare
the nesting structure produced by the two combinator grammars. -/
inductive Shape where
  | leafS
  | nodeS (cs : List Shape)

mutual
/-- Erase a tree to its shape. -/
def Tree.toShape : Tree → Shape
  | .leaf _ => .leafS
  | .node _ cs => .nodeS (treesToShape cs)

/-- Erase a forest to its shapes. -/
def treesToShape : List Tree → List Shape
  | [] => []
  | t :: ts => Tree.toShape t :: treesToShape ts
end

/-- Token stream of: container { } -/
def c1Toks : List Token := [tok .CONTAINER_KW "container", tok .L_CURLY " \x7b", tok .R_CURLY " \x7d"]

/-- The tree parse_container_at_rule produces on c1Toks. -/
def c1Tree : Tree :=
  .node .CSS_CONTAINER_AT_RULE
    [.leaf (tok .CONTAINER_KW "container"),
     .node .CSS_RULE_LIST_BLOCK [.leaf (tok .L_CURLY " \x7b"), .leaf (tok .R_CURLY " \x7d")]]

/-- Token stream of: container (not — an opening paren whose condition is an
unclosed not query. -/
def c2Toks : List Token := [tok .CONTAINER_KW "container", tok .L_PAREN " (", tok .NOT_KW "not"]

/-- Token stream of: container foo container bar { } — a container rule with
no block followed by a complete one. -/
def c4Toks : List Token :=
  [tok .CONTAINER_KW "container", tok .IDENT " foo",
   tok .CONTAINER_KW " container", tok .IDENT " bar", tok .L_CURLY " \x7b", tok .R_CURLY " \x7d"]

/-- The suffix left after the recovered first rule of c4Toks. -/
def c4Rest : List Token :=
  [tok .CONTAINER_KW " container", tok .IDENT " bar", tok .L_CURLY " \x7b", tok .R_CURLY " \x7d"]

/-- Operand tree used by the C4 witness: the size feature (w). -/
def c4WitToks : List Token := [tok .L_PAREN "(", tok .IDENT "w", tok .R_PAREN ")"]

/-- The tree parse_container_size_feature_in_parens produces on c4WitToks. -/
def c4WitTree : Tree :=
  .node .CSS_CONTAINER_SIZE_FEATURE_IN_PARENS
    [.leaf (tok .L_PAREN "("), .node .CSS_QUERY_FEATURE [.leaf (tok .IDENT "w")],
     .leaf (tok .R_PAREN ")")]

/-- Token stream of: ( ( a ) ) — a grouping paren around a size feature. -/
def c5Toks : List Token :=
  [tok .L_PAREN "(", tok .L_PAREN "(", tok .IDENT "a", tok .R_PAREN ")", tok .R_PAREN ")"]

/-- The tree parse_container_query_in_parens produces on c5Toks. -/
def c5Tree : Tree :=
  .node .CSS_CONTAINER_QUERY_IN_PARENS
    [.leaf (tok .L_PAREN "("),
     .node .CSS_CONTAINER_SIZE_FEATURE_IN_PARENS
       [.leaf (tok .L_PAREN "("), .node .CSS_QUERY_FEATURE [.leaf (tok .IDENT "a")],
        .leaf (tok .R_PAREN ")")],
     .leaf (tok .R_PAREN ")")]

/-- Token stream of: container (a) and (b) or (c) { } -/
def c6Toks : List Token :=
  [tok .CONTAINER_KW "container", tok .L_PAREN " (", tok .IDENT "a", tok .R_PAREN ")",
   tok .AND_KW " and", tok .L_PAREN " (", tok .IDENT "b", tok .R_PAREN ")",
   tok .OR_KW " or", tok .L_PAREN " (", tok .IDENT "c", tok .R_PAREN ")",
   tok .L_CURLY " \x7b", tok .R_CURLY " \x7d"]

/-- The suffix the parse of c6Toks leaves unconsumed: or (c) { } -/
def c6Rest : List Token :=
  [tok .OR_KW " or", tok .L_PAREN " (", tok .IDENT "c", tok .R_PAREN ")",
   tok .L_CURLY " \x7b", tok .R_CURLY " \x7d"]

/-- The size feature node for one parenthesised identifier operand. -/
def sizeFeat (lp : String) (idt : String) : Tree :=
  .node .CSS_CONTAINER_SIZE_FEATURE_IN_PARENS
    [.leaf (tok .L_PAREN lp), .node .CSS_QUERY_FEATURE [.leaf (tok .IDENT idt)],
     .leaf (tok .R_PAREN ")")]

/-- The tree parse_container_at_rule produces on c6Toks: a Bogus at-rule whose
condition stops after the and chain. -/
def c6Tree : Tree :=
  .node .CSS_BOGUS_AT_RULE
    [.leaf (tok .CONTAINER_KW "container"),
     .node .CSS_CONTAINER_AND_QUERY
       [sizeFeat " (" "a", .leaf (tok .AND_KW " and"), sizeFeat " (" "b"]]

/-- Token stream of: (a) and (b) and (c) — a homogeneous three-operand chain. -/
def c7Toks : List Token :=
  [tok .L_PAREN "(", tok .IDENT "a", tok .R_PAREN ")",
   tok .AND_KW " and", tok .L_PAREN " (", tok .IDENT "b", tok .R_PAREN ")",
   tok .AND_KW " and", tok .L_PAREN " (", tok .IDENT "c", tok .R_PAREN ")"]

/-- Token stream of the condition of: container not (style(color: red)) -/
def c8Toks : List Token :=
  [tok .NOT_KW "not", tok .L_PAREN " (", tok .STYLE_KW "style", tok .L_PAREN "(",
   tok .IDENT "color", tok .COLON ":", tok .IDENT " red", tok .R_PAREN ")", tok .R_PAREN ")"]

/-- Token stream of the condition of: container not style(color: red) — without
the outer parenthesis. -/
def c8bToks : List Token :=
  [tok .NOT_KW "not", tok .STYLE_KW " style", tok .L_PAREN "(",
   tok .IDENT "color", tok .COLON ":", tok .IDENT " red", tok .R_PAREN ")"]

/-- Token stream of: not : — a not keyword not followed by a paren, inside a
style query. -/
def c10Toks : List Token := [tok .NOT_KW "not", tok .COLON ":"]

end Biome

namespace UseParseIntRadix

/-- Rule states signalled by UseParseIntRadix::run. -/
inductive State where
  | MissingParameters
  | MissingRadix
  | InvalidRadix
deriving DecidableEq

/-- Modelled from the spec: a literal expression as the rule sees it — number
literals carry the numeric value parse_js_number extracts from their text
(none when unparseable), every finite double being an exact rational; other
literal forms are only distinguished from numbers. -/
inductive AnyJsLiteralExpression where
  | jsNumberLiteralExpression (value : Option ℚ)
  | otherLiteral
deriving DecidableEq

/-- Modelled from the spec: the expression shapes the rule distinguishes — a
literal, an identifier (with its resolved name text, none when the token is
missing), and everything else. -/
inductive AnyJsExpression where
  | anyJsLiteralExpression (l : AnyJsLiteralExpression)
  | jsIdentifierExpression (name : Option String)
  | other
deriving DecidableEq

/-- A call argument: an expression or a spread. -/
inductive AnyJsCallArgument where
  | anyJsExpression (e : AnyJsExpression)
  | spread
deriving DecidableEq

/-- Modelled from the spec: the view of a call expression the rule queries —
the callee object and member names (none when the accessor fails) and the
argument list, each element none when the separated list holds a syntax
error there. -/
structure JsCallExpression where
  calleeObjectName : Option String
  calleeMemberName : Option String
  args : List (Option AnyJsCallArgument)
deriving DecidableEq

/-- f64_to_i64: an f64 converts only when it is not fractional and fits in
i64; on the rational value of a finite double, not fractional means
denominator one. -/
def f64_to_i64 (value : ℚ) : Option ℤ :=
  if value.den = 1 ∧ -(2 ^ 63) ≤ value.num ∧ value.num ≤ 2 ^ 63 - 1 then some value.num
  else none

/-- is_valid_radix_value: a literal is a valid radix exactly when it is a
number whose value is a non-fractional integer between 2 and 36; an
unparseable number propagates none. -/
def is_valid_radix_value (literal : AnyJsLiteralExpression) : Option Bool :=
  match literal with
  | .jsNumberLiteralExpression value? =>
    match value? with
    | none => none
    | some value =>
      match f64_to_i64 value with
      | none => some false
      | some number => some (decide (2 ≤ number ∧ number ≤ 36))
  | .otherLiteral => some false

/-- is_valid_radix: literals go through is_valid_radix_value, identifiers are
invalid exactly when they are undefined, everything else counts as valid. -/
def is_valid_radix (argument : AnyJsExpression) : Option Bool :=
  match argument with
  | .anyJsLiteralExpression l => is_valid_radix_value l
  | .jsIdentifierExpression name? =>
    match name? with
    | none => none
    | some name => some (decide (name ≠ "undefined"))
  | .other => some true

/-- UseParseIntRadix::run: match parseInt / Number.parseInt calls and signal
missing parameters, a missing radix, or an invalid radix. -/
def run (call : JsCallExpression) : Option State :=
  match call.calleeObjectName with
  | none => none
  | some object_name =>
    if object_name = "Number" ∨ object_name = "parseInt" then
      match call.calleeMemberName with
      | none => none
      | some member_name =>
        if member_name = "parseInt" then
          match call.args with
          | [] => some .MissingParameters
          | firstArg? :: restArgs =>
            match firstArg? with
            | none => none
            | some firstArg =>
              match firstArg with
              | .spread => none
              | .anyJsExpression _ =>
                match restArgs with
                | [] => some .MissingRadix
                | secondArg? :: _ =>
                  match secondArg? with
                  | none => none
                  | some secondArg =>
                    match secondArg with
                    | .spread => none
                    | .anyJsExpression radix_argument =>
                      match is_valid_radix radix_argument with
                      | none => none
                      | some valid => if valid then none else some .InvalidRadix
        else none
    else none

end UseParseIntRadix

namespace Biome

@[simp]
theorem treesToks_append (a b : List Tree) : treesToks (a ++ b) = treesToks a ++ treesToks b := by
  induction a with
  | nil => simp [treesToks]
  | cons t ts ih => simp [treesToks, ih]

@[simp]
theorem treesToks_childrenOf (r : ParsedSyntax) : treesToks (childrenOf r) = resToks r := by
  cases r <;> simp [childrenOf, resToks, treesToks]

@[simp]
theorem treesToks_optLeaf (o : Option Token) : treesToks (optLeaf o) = optToks o := by
  cases o <;> simp [optLeaf, optToks, treesToks, treeToks]

@[simp]
theorem listText_append (a b : List Token) : listText (a ++ b) = listText a ++ listText b := by
  induction a with
  | nil => simp [listText]
  | cons t ts ih => simp [listText, ih, String.append_assoc]

theorem isAt_true {p : CssParser} {k : TokKind} (h : isAt p k = true) : curKind p = k := by
  simpa [isAt] using h

theorem bumpTok_spec {k : TokKind} {p : CssParser} {t : Token} {p' : CssParser}
    (h : bumpTok k p = .ok (t, p')) : p.rest = t :: p'.rest ∧ p'.diags = p.diags := by
  unfold bumpTok at h
  split at h
  · split at h
    · injection h with h'
      injection h' with h1 h2
      subst h1
      subst h2
      simp_all
    · exact absurd h (by simp)
  · exact absurd h (by simp)

theorem expectTok_spec {k : TokKind} {p : CssParser} {o : Option Token} {p' : CssParser}
    (h : expectTok k p = (o, p')) : p.rest = optToks o ++ p'.rest := by
  unfold expectTok at h
  split at h
  · split at h
    · injection h with h1 h2
      subst h1
      subst h2
      simp_all [optToks]
    · injection h with h1 h2
      subst h1
      subst h2
      simp [optToks]
  · injection h with h1 h2
    subst h1
    subst h2
    simp [optToks]

theorem consumeWhile_spec (f : TokKind → Bool) :
    ∀ l : List Token, treesToks (consumeWhile f l).1 ++ (consumeWhile f l).2 = l := by
  intro l
  induction l with
  | nil => simp [consumeWhile, treesToks]
  | cons t ts ih =>
    by_cases hf : f t.kind <;> simp [consumeWhile, hf, treesToks, treeToks, ih]

theorem parse_regular_identifier_spec {p : CssParser} {r : ParsedSyntax} {p' : CssParser}
    (h : parse_regular_identifier p = (r, p')) :
    p.rest = resToks r ++ p'.rest ∧ (r = .absent → p' = p) ∧
      (∀ t, r = .present t → t.rootKind = some .CSS_IDENTIFIER) := by
  unfold parse_regular_identifier at h
  split at h
  · rename_i thead ttail heq
    split at h
    · injection h with h1 h2
      subst h1
      subst h2
      refine ⟨?_, ?_, ?_⟩
      · rw [heq]
        simp [resToks, treeToks, treesToks]
      · intro hc
        cases hc
      · intro t ht
        injection ht with ht
        subst ht
        rfl
    · injection h with h1 h2
      subst h1
      subst h2
      refine ⟨by simp [resToks], fun _ => rfl, ?_⟩
      intro t ht
      cases ht
  · injection h with h1 h2
    subst h1
    subst h2
    refine ⟨by simp [resToks], fun _ => rfl, ?_⟩
    intro t ht
    cases ht

theorem parse_declaration_spec {p : CssParser} {r : ParsedSyntax} {p' : CssParser}
    (h : parse_declaration p = (r, p')) :
    p.rest = resToks r ++ p'.rest ∧ (r = .absent → p' = p) ∧
      (∀ t, r = .present t → t.rootKind = some .CSS_DECLARATION) := by
  unfold parse_declaration at h
  split at h
  · rename_i thead ttail heq
    split at h
    · injection h with h1 h2
      subst h1
      subst h2
      refine ⟨?_, ?_, ?_⟩
      · have hc := consumeWhile_spec declValueKind ttail
        rw [heq]
        simp only [resToks, treeToks, treesToks]
        simp [hc]
      · intro hc
        cases hc
      · intro t ht
        injection ht with ht
        subst ht
        rfl
    · injection h with h1 h2
      subst h1
      subst h2
      refine ⟨by simp [resToks], fun _ => rfl, ?_⟩
      intro t ht
      cases ht
  · injection h with h1 h2
    subst h1
    subst h2
    refine ⟨by simp [resToks], fun _ => rfl, ?_⟩
    intro t ht
    cases ht

theorem parse_any_query_feature_spec {p : CssParser} {r : ParsedSyntax} {p' : CssParser}
    (h : parse_any_query_feature p = (r, p')) :
    p.rest = resToks r ++ p'.rest ∧ (r = .absent → p' = p) ∧
      (∀ t, r = .present t → t.rootKind = some .CSS_QUERY_FEATURE) := by
  unfold parse_any_query_feature at h
  split at h
  · rename_i thead ttail heq
    split at h
    · injection h with h1 h2
      subst h1
      subst h2
      refine ⟨?_, ?_, ?_⟩
      · have hc := consumeWhile_spec declValueKind ttail
        rw [heq]
        simp only [resToks, treeToks, treesToks]
        simp [hc]
      · intro hc
        cases hc
      · intro t ht
        injection ht with ht
        subst ht
        rfl
    · injection h with h1 h2
      subst h1
      subst h2
      refine ⟨by simp [resToks], fun _ => rfl, ?_⟩
      intro t ht
      cases ht
  · injection h with h1 h2
    subst h1
    subst h2
    refine ⟨by simp [resToks], fun _ => rfl, ?_⟩
    intro t ht
    cases ht

theorem skipToCloseCurly_spec :
    ∀ (l : List Token) (d : Nat), treesToks (skipToCloseCurly l d).1 ++ (skipToCloseCurly l d).2 = l := by
  intro l
  induction l with
  | nil =>
    intro d
    simp [skipToCloseCurly, treesToks]
  | cons t ts ih =>
    intro d
    unfold skipToCloseCurly
    split
    · split
      · simp [treesToks, treeToks]
      · simp [treesToks, treeToks, ih]
    · simp [treesToks, treeToks, ih]
    · simp [treesToks, treeToks, ih]

theorem parse_or_recover_rule_list_block_spec {p : CssParser} {e : Except Unit Tree} {p' : CssParser}
    (h : parse_or_recover_rule_list_block p = (e, p')) :
    (∀ t, e = .ok t → p.rest = treeToks t ++ p'.rest ∧ p'.diags = p.diags) ∧
      (∀ u, e = .error u → p' = ⟨p.rest, p.diags + 1⟩) := by
  unfold parse_or_recover_rule_list_block at h
  split at h
  · rename_i thead ttail heq
    split at h
    · injection h with h1 h2
      subst h1
      subst h2
      refine ⟨?_, ?_⟩
      · intro b hb
        injection hb with hb
        subst hb
        refine ⟨?_, rfl⟩
        have hc := skipToCloseCurly_spec ttail 0
        rw [heq]
        simp only [treeToks, treesToks]
        simp [hc]
      · intro u hu
        cases hu
    · injection h with h1 h2
      subst h1
      subst h2
      refine ⟨?_, fun _ _ => rfl⟩
      intro b hb
      cases hb
  · injection h with h1 h2
    subst h1
    subst h2
    refine ⟨?_, fun _ _ => rfl⟩
    intro b hb
    cases hb


theorem kindUp {t : Tree} {ks ks' : List NodeKind}
    (h : ∃ k, t.rootKind = some k ∧ k ∈ ks) (hsub : ∀ k ∈ ks, k ∈ ks') :
    ∃ k, t.rootKind = some k ∧ k ∈ ks' := by
  obtain ⟨k, h1, h2⟩ := h
  exact ⟨k, h1, hsub k h2⟩

theorem contract_mono {ks ks' : List NodeKind} {p : CssParser} {r : PResult}
    (h : prodContract ks p r) (hsub : ∀ k ∈ ks, k ∈ ks') : prodContract ks' p r := by
  intro res p' he
  obtain ⟨h1, h2, h3⟩ := h res p' he
  exact ⟨h1, h2, fun t ht => kindUp (h3 t ht) hsub⟩

theorem step_styleInParens (fuel : Nat)
    (ih : ∀ pr q, prodContract (allowedKinds pr) q (runProd pr fuel q)) (p : CssParser) :
    prodContract (allowedKinds .styleInParens) p (parse_container_style_in_parens (fuel + 1) p) := by
  intro res p' h
  unfold parse_container_style_in_parens at h
  split at h
  · split at h
    · simp at h
    · rename_i lp p1 hbump
      split at h
      · simp at h
      · rename_i q p2 hq
        split at h
        rename_i rp p3 hexp
        injection h with h'
        injection h' with h1 h2
        subst h1
        subst h2
        have hb := bumpTok_spec hbump
        have hq1 := (ih .anyStyleQuery p1) q p2 hq
        have he := expectTok_spec hexp
        refine ⟨?_, ?_, ?_⟩
        · simp only [resToks, treeToks, treesToks, treesToks_append, treesToks_childrenOf,
            treesToks_optLeaf]
          rw [hb.1, hq1.1, he]
          simp [resToks]
        · intro hc
          cases hc
        · intro t ht
          injection ht with ht
          subst ht
          exact ⟨.CSS_CONTAINER_STYLE_IN_PARENS, rfl, by simp [allowedKinds]⟩
  · injection h with h'
    injection h' with h1 h2
    subst h1
    subst h2
    refine ⟨by simp [resToks], fun _ => rfl, ?_⟩
    intro t ht
    cases ht

theorem step_styleNotQuery (fuel : Nat)
    (ih : ∀ pr q, prodContract (allowedKinds pr) q (runProd pr fuel q)) (p : CssParser) :
    prodContract (allowedKinds .styleNotQuery) p (parse_container_style_not_query (fuel + 1) p) := by
  intro res p' h
  unfold parse_container_style_not_query at h
  split at h
  · split at h
    · simp at h
    · rename_i tn p1 hbump
      split at h
      · simp at h
      · rename_i sip p2 hsip
        injection h with h'
        injection h' with h1 h2
        subst h1
        subst h2
        have hb := bumpTok_spec hbump
        have hs := (ih .styleInParens p1) sip p2 hsip
        refine ⟨?_, ?_, ?_⟩
        · simp only [resToks, treeToks, treesToks, treesToks_append, treesToks_childrenOf]
          rw [hb.1, hs.1]
          simp [resToks]
        · intro hc
          cases hc
        · intro t ht
          injection ht with ht
          subst ht
          exact ⟨.CSS_CONTAINER_STYLE_NOT_QUERY, rfl, by simp [allowedKinds]⟩
  · injection h with h'
    injection h' with h1 h2
    subst h1
    subst h2
    refine ⟨by simp [resToks], fun _ => rfl, ?_⟩
    intro t ht
    cases ht

theorem step_notQuery (fuel : Nat)
    (ih : ∀ pr q, prodContract (allowedKinds pr) q (runProd pr fuel q)) (p : CssParser) :
    prodContract (allowedKinds .notQuery) p (parse_container_not_query (fuel + 1) p) := by
  intro res p' h
  unfold parse_container_not_query at h
  split at h
  · split at h
    · simp at h
    · rename_i tn p1 hbump
      split at h
      · simp at h
      · rename_i q p2 hq
        injection h with h'
        injection h' with h1 h2
        subst h1
        subst h2
        have hb := bumpTok_spec hbump
        have hs := (ih .anyQueryInParens p1) q p2 hq
        refine ⟨?_, ?_, ?_⟩
        · simp only [resToks, treeToks, treesToks, treesToks_append, treesToks_childrenOf]
          rw [hb.1, hs.1]
          simp [resToks]
        · intro hc
          cases hc
        · intro t ht
          injection ht with ht
          subst ht
          exact ⟨.CSS_CONTAINER_NOT_QUERY, rfl, by simp [allowedKinds]⟩
  · injection h with h'
    injection h' with h1 h2
    subst h1
    subst h2
    refine ⟨by simp [resToks], fun _ => rfl, ?_⟩
    intro t ht
    cases ht


theorem step_queryInParens (fuel : Nat)
    (ih : ∀ pr q, prodContract (allowedKinds pr) q (runProd pr fuel q)) (p : CssParser) :
    prodContract (allowedKinds .queryInParens) p (parse_container_query_in_parens (fuel + 1) p) := by
  intro res p' h
  unfold parse_container_query_in_parens at h
  split at h
  · split at h
    · simp at h
    · rename_i lp p1 hbump
      split at h
      · simp at h
      · rename_i q p2 hq
        split at h
        · simp at h
        · rename_i rp p3 hbump2
          injection h with h'
          injection h' with h1 h2
          subst h1
          subst h2
          have hb := bumpTok_spec hbump
          have hq1 := (ih .anyQuery p1) q p2 hq
          have hb2 := bumpTok_spec hbump2
          refine ⟨?_, ?_, ?_⟩
          · simp only [treeToks, treesToks, treesToks_append, treesToks_childrenOf,
              resToks]
            rw [hb.1, hq1.1, hb2.1]
            simp [resToks]
          · intro hc
            cases hc
          · intro t ht
            injection ht with ht
            subst ht
            exact ⟨.CSS_CONTAINER_QUERY_IN_PARENS, rfl, by simp [allowedKinds]⟩
  · injection h with h'
    injection h' with h1 h2
    subst h1
    subst h2
    refine ⟨by simp [resToks], fun _ => rfl, ?_⟩
    intro t ht
    cases ht

theorem step_sizeFeatureInParens (fuel : Nat) (p : CssParser) :
    prodContract (allowedKinds .sizeFeatureInParens) p
      (parse_container_size_feature_in_parens (fuel + 1) p) := by
  intro res p' h
  unfold parse_container_size_feature_in_parens at h
  split at h
  · simp at h
  · rename_i fuel2 heqf
    have hfe : fuel2 = fuel := by omega
    subst hfe
    split at h
    · split at h
      · simp at h
      · rename_i lp p1 hbump
        split at h
        rename_i feat p2 hfeat
        split at h
        rename_i rp p3 hexp
        injection h with h'
        injection h' with h1 h2
        subst h1
        subst h2
        have hb := bumpTok_spec hbump
        have hf := parse_any_query_feature_spec hfeat
        have he := expectTok_spec hexp
        refine ⟨?_, ?_, ?_⟩
        · simp only [treeToks, treesToks, treesToks_append, treesToks_childrenOf,
            treesToks_optLeaf, resToks]
          rw [hb.1, hf.1, he]
          simp [resToks]
        · intro hc
          cases hc
        · intro t ht
          injection ht with ht
          subst ht
          exact ⟨.CSS_CONTAINER_SIZE_FEATURE_IN_PARENS, rfl, by simp [allowedKinds]⟩
    · injection h with h'
      injection h' with h1 h2
      subst h1
      subst h2
      refine ⟨by simp [resToks], fun _ => rfl, ?_⟩
      intro t ht
      cases ht

theorem step_styleQueryInParens (fuel : Nat)
    (ih : ∀ pr q, prodContract (allowedKinds pr) q (runProd pr fuel q)) (p : CssParser) :
    prodContract (allowedKinds .styleQueryInParens) p
      (parse_container_style_query_in_parens (fuel + 1) p) := by
  intro res p' h
  unfold parse_container_style_query_in_parens at h
  split at h
  · simp at h
  · rename_i fuel2 heqf
    have hfe : fuel2 = fuel := by omega
    subst hfe
    split at h
    · split at h
      · simp at h
      · rename_i st p1 hbump
        split at h
        rename_i lp p2 hexp1
        split at h
        · simp at h
        · rename_i q p3 hq
          split at h
          rename_i rp p4 hexp2
          injection h with h'
          injection h' with h1 h2
          subst h1
          subst h2
          have hb := bumpTok_spec hbump
          have he1 := expectTok_spec hexp1
          have hq1 := (ih .anyStyleQuery p2) q p3 hq
          have he2 := expectTok_spec hexp2
          refine ⟨?_, ?_, ?_⟩
          · simp only [treeToks, treesToks, treesToks_append, treesToks_childrenOf,
              treesToks_optLeaf, resToks]
            rw [hb.1, he1, hq1.1, he2]
            simp [resToks]
          · intro hc
            cases hc
          · intro t ht
            injection ht with ht
            subst ht
            exact ⟨.CSS_CONTAINER_STYLE_QUERY_IN_PARENS, rfl, by simp [allowedKinds]⟩
    · injection h with h'
      injection h' with h1 h2
      subst h1
      subst h2
      refine ⟨by simp [resToks], fun _ => rfl, ?_⟩
      intro t ht
      cases ht

theorem step_anyQueryInParens (fuel : Nat)
    (ih : ∀ pr q, prodContract (allowedKinds pr) q (runProd pr fuel q)) (p : CssParser) :
    prodContract (allowedKinds .anyQueryInParens) p
      (parse_any_container_query_in_parens (fuel + 1) p) := by
  intro res p' h
  unfold parse_any_container_query_in_parens at h
  split at h
  · exact contract_mono (ih .queryInParens p) (by decide) res p' h
  · split at h
    · exact contract_mono (ih .styleQueryInParens p) (by decide) res p' h
    · split at h
      · exact contract_mono (ih .sizeFeatureInParens p) (by decide) res p' h
      · injection h with h'
        injection h' with h1 h2
        subst h1
        subst h2
        refine ⟨by simp [resToks], fun _ => rfl, ?_⟩
        intro t ht
        cases ht

theorem step_anyStyleQuery (fuel : Nat)
    (ih : ∀ pr q, prodContract (allowedKinds pr) q (runProd pr fuel q)) (p : CssParser) :
    prodContract (allowedKinds .anyStyleQuery) p
      (parse_any_container_style_query (fuel + 1) p) := by
  intro res p' h
  unfold parse_any_container_style_query at h
  split at h
  · exact contract_mono (ih .styleNotQuery p) (by decide) res p' h
  · split at h
    · injection h with h'
      have hd := parse_declaration_spec h'
      refine ⟨hd.1, hd.2.1, ?_⟩
      intro t ht
      have := hd.2.2 t ht
      exact ⟨.CSS_DECLARATION, this, by simp [allowedKinds]⟩
    · exact contract_mono (ih .styleCombinableQuery p) (by decide) res p' h

theorem step_anyQuery (fuel : Nat)
    (ih : ∀ pr q, prodContract (allowedKinds pr) q (runProd pr fuel q)) (p : CssParser) :
    prodContract (allowedKinds .anyQuery) p (parse_any_container_query (fuel + 1) p) := by
  intro res p' h
  unfold parse_any_container_query at h
  split at h
  · exact contract_mono (ih .notQuery p) (by decide) res p' h
  · split at h
    · simp at h
    · rename_i qip p1 hqip
      have H := (ih .anyQueryInParens p) qip p1 hqip
      split at h
      · split at h
        · simp at h
        · rename_i ta p2 hbump
          split at h
          · simp at h
          · rename_i rhs p3 hrhs
            injection h with h'
            injection h' with h1 h2
            subst h1
            subst h2
            have hb := bumpTok_spec hbump
            have H2 := (ih .andQuery p2) rhs p3 hrhs
            refine ⟨?_, ?_, ?_⟩
            · simp only [treeToks, treesToks, treesToks_append, treesToks_childrenOf,
                resToks]
              rw [H.1, hb.1, H2.1]
              simp [resToks]
            · intro hc
              cases hc
            · intro t ht
              injection ht with ht
              subst ht
              exact ⟨.CSS_CONTAINER_AND_QUERY, rfl, by simp [allowedKinds]⟩
      · split at h
        · simp at h
        · rename_i to_ p2 hbump
          split at h
          · simp at h
          · rename_i rhs p3 hrhs
            injection h with h'
            injection h' with h1 h2
            subst h1
            subst h2
            have hb := bumpTok_spec hbump
            have H2 := (ih .orQuery p2) rhs p3 hrhs
            refine ⟨?_, ?_, ?_⟩
            · simp only [treeToks, treesToks, treesToks_append, treesToks_childrenOf,
                resToks]
              rw [H.1, hb.1, H2.1]
              simp [resToks]
            · intro hc
              cases hc
            · intro t ht
              injection ht with ht
              subst ht
              exact ⟨.CSS_CONTAINER_OR_QUERY, rfl, by simp [allowedKinds]⟩
      · injection h with h'
        injection h' with h1 h2
        subst h1
        subst h2
        refine ⟨H.1, H.2.1, ?_⟩
        intro t ht
        exact kindUp (H.2.2 t ht) (by decide)

theorem step_andQuery (fuel : Nat)
    (ih : ∀ pr q, prodContract (allowedKinds pr) q (runProd pr fuel q)) (p : CssParser) :
    prodContract (allowedKinds .andQuery) p (parse_container_and_query (fuel + 1) p) := by
  intro res p' h
  unfold parse_container_and_query at h
  split at h
  · simp at h
  · rename_i qip p1 hqip
    have H := (ih .anyQueryInParens p) qip p1 hqip
    split at h
    · split at h
      · simp at h
      · rename_i ta p2 hbump
        split at h
        · simp at h
        · rename_i rhs p3 hrhs
          injection h with h'
          injection h' with h1 h2
          subst h1
          subst h2
          have hb := bumpTok_spec hbump
          have H2 := (ih .andQuery p2) rhs p3 hrhs
          refine ⟨?_, ?_, ?_⟩
          · simp only [treeToks, treesToks, treesToks_append, treesToks_childrenOf,
              resToks]
            rw [H.1, hb.1, H2.1]
            simp [resToks]
          · intro hc
            cases hc
          · intro t ht
            injection ht with ht
            subst ht
            exact ⟨.CSS_CONTAINER_AND_QUERY, rfl, by simp [allowedKinds]⟩
    · injection h with h'
      injection h' with h1 h2
      subst h1
      subst h2
      refine ⟨H.1, H.2.1, ?_⟩
      intro t ht
      exact kindUp (H.2.2 t ht) (by decide)

theorem step_orQuery (fuel : Nat)
    (ih : ∀ pr q, prodContract (allowedKinds pr) q (runProd pr fuel q)) (p : CssParser) :
    prodContract (allowedKinds .orQuery) p (parse_container_or_query (fuel + 1) p) := by
  intro res p' h
  unfold parse_container_or_query at h
  split at h
  · simp at h
  · rename_i qip p1 hqip
    have H := (ih .anyQueryInParens p) qip p1 hqip
    split at h
    · split at h
      · simp at h
      · rename_i to_ p2 hbump
        split at h
        · simp at h
        · rename_i rhs p3 hrhs
          injection h with h'
          injection h' with h1 h2
          subst h1
          subst h2
          have hb := bumpTok_spec hbump
          have H2 := (ih .andQuery p2) rhs p3 hrhs
          refine ⟨?_, ?_, ?_⟩
          · simp only [treeToks, treesToks, treesToks_append, treesToks_childrenOf,
              resToks]
            rw [H.1, hb.1, H2.1]
            simp [resToks]
          · intro hc
            cases hc
          · intro t ht
            injection ht with ht
            subst ht
            exact ⟨.CSS_CONTAINER_OR_QUERY, rfl, by simp [allowedKinds]⟩
    · injection h with h'
      injection h' with h1 h2
      subst h1
      subst h2
      refine ⟨H.1, H.2.1, ?_⟩
      intro t ht
      exact kindUp (H.2.2 t ht) (by decide)

theorem step_styleCombinableQuery (fuel : Nat)
    (ih : ∀ pr q, prodContract (allowedKinds pr) q (runProd pr fuel q)) (p : CssParser) :
    prodContract (allowedKinds .styleCombinableQuery) p
      (parse_any_container_style_combinable_query (fuel + 1) p) := by
  intro res p' h
  unfold parse_any_container_style_combinable_query at h
  split at h
  · simp at h
  · rename_i sip p1 hsip
    have H := (ih .styleInParens p) sip p1 hsip
    split at h
    · split at h
      · simp at h
      · rename_i ta p2 hbump
        split at h
        · simp at h
        · rename_i rhs p3 hrhs
          injection h with h'
          injection h' with h1 h2
          subst h1
          subst h2
          have hb := bumpTok_spec hbump
          have H2 := (ih .styleCombinableQuery p2) rhs p3 hrhs
          refine ⟨?_, ?_, ?_⟩
          · simp only [treeToks, treesToks, treesToks_append, treesToks_childrenOf,
              resToks]
            rw [H.1, hb.1, H2.1]
            simp [resToks]
          · intro hc
            cases hc
          · intro t ht
            injection ht with ht
            subst ht
            exact ⟨.CSS_CONTAINER_STYLE_AND_QUERY, rfl, by simp [allowedKinds]⟩
    · split at h
      · simp at h
      · rename_i to_ p2 hbump
        split at h
        · simp at h
        · rename_i rhs p3 hrhs
          injection h with h'
          injection h' with h1 h2
          subst h1
          subst h2
          have hb := bumpTok_spec hbump
          have H2 := (ih .styleCombinableQuery p2) rhs p3 hrhs
          refine ⟨?_, ?_, ?_⟩
          · simp only [treeToks, treesToks, treesToks_append, treesToks_childrenOf,
              resToks]
            rw [H.1, hb.1, H2.1]
            simp [resToks]
          · intro hc
            cases hc
          · intro t ht
            injection ht with ht
            subst ht
            exact ⟨.CSS_CONTAINER_STYLE_OR_QUERY, rfl, by simp [allowedKinds]⟩
    · injection h with h'
      injection h' with h1 h2
      subst h1
      subst h2
      refine ⟨H.1, H.2.1, ?_⟩
      intro t ht
      exact kindUp (H.2.2 t ht) (by decide)

theorem step_atRule (fuel : Nat)
    (ih : ∀ pr q, prodContract (allowedKinds pr) q (runProd pr fuel q)) (p : CssParser) :
    prodContract (allowedKinds .atRule) p (parse_container_at_rule (fuel + 1) p) := by
  intro res p' h
  unfold parse_container_at_rule at h
  split at h
  · simp at h
  · rename_i fuel2 heqf
    have hfe : fuel2 = fuel := by omega
    subst hfe
    split at h
    · split at h
      · simp at h
      · rename_i t0 p1 hbump
        split at h
        rename_i idRes p2 hid
        split at h
        · simp at h
        · rename_i qRes p3 hq
          have hb := bumpTok_spec hbump
          have hi := parse_regular_identifier_spec hid
          have hqr := (ih .anyQuery p2) qRes p3 hq
          split at h
          · rename_i u p4 hblk
            have hbl := parse_or_recover_rule_list_block_spec hblk
            injection h with h'
            injection h' with h1 h2
            subst h1
            subst h2
            refine ⟨?_, ?_, ?_⟩
            · have h4 := hbl.2 u rfl
              simp only [treeToks, treesToks, treesToks_append, treesToks_childrenOf,
                resToks]
              rw [hb.1, hi.1, hqr.1, h4]
              simp [resToks]
            · intro hc
              cases hc
            · intro t ht
              injection ht with ht
              subst ht
              exact ⟨.CSS_BOGUS_AT_RULE, rfl, by simp [allowedKinds]⟩
          · rename_i blk p4 hblk
            have hbl := parse_or_recover_rule_list_block_spec hblk
            injection h with h'
            injection h' with h1 h2
            subst h1
            subst h2
            refine ⟨?_, ?_, ?_⟩
            · have h4 := (hbl.1 blk rfl).1
              simp only [treeToks, treesToks, treesToks_append, treesToks_childrenOf,
                resToks]
              rw [hb.1, hi.1, hqr.1, h4]
              simp [resToks, treesToks, treeToks]
            · intro hc
              cases hc
            · intro t ht
              injection ht with ht
              subst ht
              exact ⟨.CSS_CONTAINER_AT_RULE, rfl, by simp [allowedKinds]⟩
    · injection h with h'
      injection h' with h1 h2
      subst h1
      subst h2
      refine ⟨by simp [resToks], fun _ => rfl, ?_⟩
      intro t ht
      cases ht

theorem runProd_contract : ∀ fuel pr p, prodContract (allowedKinds pr) p (runProd pr fuel p) := by
  intro fuel
  induction fuel with
  | zero =>
    intro pr p res p' h
    cases pr <;>
      simp [runProd, parse_container_at_rule, parse_any_container_query,
        parse_container_and_query, parse_container_or_query, parse_container_not_query,
        parse_any_container_query_in_parens, parse_container_query_in_parens,
        parse_container_size_feature_in_parens, parse_container_style_query_in_parens,
        parse_any_container_style_query, parse_any_container_style_combinable_query,
        parse_container_style_not_query, parse_container_style_in_parens] at h
  | succ fuel ih =>
    intro pr p
    cases pr
    case atRule => exact step_atRule fuel ih p
    case anyQuery => exact step_anyQuery fuel ih p
    case andQuery => exact step_andQuery fuel ih p
    case orQuery => exact step_orQuery fuel ih p
    case notQuery => exact step_notQuery fuel ih p
    case anyQueryInParens => exact step_anyQueryInParens fuel ih p
    case queryInParens => exact step_queryInParens fuel ih p
    case sizeFeatureInParens => exact step_sizeFeatureInParens fuel p
    case styleQueryInParens => exact step_styleQueryInParens fuel ih p
    case anyStyleQuery => exact step_anyStyleQuery fuel ih p
    case styleCombinableQuery => exact step_styleCombinableQuery fuel ih p
    case styleNotQuery => exact step_styleNotQuery fuel ih p
    case styleInParens => exact step_styleInParens fuel ih p


/-- Claim C1: for every input token stream, well-formed or malformed, whenever
parse_container_at_rule returns a result, concatenating the exact source text
of every leaf token of the returned outcome, in tree order, equals the
original input text covered by the parse: the consumed tokens are exactly the
leaves, and prefixing their text to the text of the unconsumed suffix
reproduces the input text. -/
theorem parse_container_at_rule_round_trip (fuel : Nat) (p : CssParser)
    (res : ParsedSyntax) (p' : CssParser)
    (h : parse_container_at_rule fuel p = .ok (res, p')) :
    p.rest = resToks res ++ p'.rest ∧
      listText (resToks res) ++ listText p'.rest = listText p.rest := by
  have H := runProd_contract fuel .atRule p res p' h
  refine ⟨H.1, ?_⟩
  rw [H.1]
  simp

/-- Witness for C1: the round trip evaluated on the concrete input
container { }. -/
theorem parse_container_at_rule_round_trip_witness :
    (CssParser.mk c1Toks 0).rest = resToks (.present c1Tree) ++ (CssParser.mk [] 0).rest ∧
      listText (resToks (.present c1Tree)) ++ listText (CssParser.mk [] 0).rest =
        listText (CssParser.mk c1Toks 0).rest :=
  parse_container_at_rule_round_trip 9 ⟨c1Toks, 0⟩ (.present c1Tree) ⟨[], 0⟩ rfl

/-- Claim C2 (refuted by execution — code bug): on the input container ( not,
parse_container_query_in_parens reaches its unconditional bump of the closing
paren with the cursor at EOF, so the bump precondition is violated and the
parse panics instead of running to completion. -/
theorem parse_container_at_rule_panics_on_unclosed_not :
    parse_container_at_rule 9 ⟨c2Toks, 0⟩ = .error .panicked := rfl

/-- Claim C3: for every production of the container-query grammar and every
cursor position, a call that returns Absent leaves the parser state — cursor
and diagnostics both — exactly as it found it. -/
theorem production_absent_non_mutation (pr : PTag) (fuel : Nat) (p p' : CssParser)
    (h : runProd pr fuel p = .ok (.absent, p')) : p' = p :=
  (runProd_contract fuel pr p .absent p' h).2.1 rfl

/-- Witness for C3: the entry production at a stream that does not start with
the container keyword returns Absent and the state is unchanged. -/
theorem production_absent_non_mutation_witness :
    CssParser.mk [tok .IDENT "x"] 0 = CssParser.mk [tok .IDENT "x"] 0 :=
  production_absent_non_mutation .atRule 1 ⟨[tok .IDENT "x"], 0⟩ ⟨[tok .IDENT "x"], 0⟩ rfl

/-- Claim C4: only the top-level container-at-rule production converts a
block-parsing failure into a whole-node Bogus tag — no inner production ever
returns a node whose root is the Bogus kind — and on the concrete input
container foo with no trailing block the parse yields a BogusAtRule node
covering exactly the text container foo with exactly one diagnostic, after
which a following top-level container rule parses independently and
successfully. -/
theorem bogus_only_at_top_level :
    (∀ pr fuel p t p', pr ≠ PTag.atRule →
        runProd pr fuel p = .ok (.present t, p') →
          ¬ t.rootKind = some .CSS_BOGUS_AT_RULE) ∧
      resultRoot (parse_container_at_rule 30 ⟨c4Toks, 0⟩) = some .CSS_BOGUS_AT_RULE ∧
      resultText (parse_container_at_rule 30 ⟨c4Toks, 0⟩) = some "container foo" ∧
      resultDiags (parse_container_at_rule 30 ⟨c4Toks, 0⟩) = some 1 ∧
      resultRest (parse_container_at_rule 30 ⟨c4Toks, 0⟩) = some c4Rest ∧
      resultRoot (parse_container_at_rule 30 ⟨c4Rest, 1⟩) = some .CSS_CONTAINER_AT_RULE ∧
      resultDiags (parse_container_at_rule 30 ⟨c4Rest, 1⟩) = some 1 ∧
      resultRest (parse_container_at_rule 30 ⟨c4Rest, 1⟩) = some [] := by
  refine ⟨?_, rfl, rfl, rfl, rfl, rfl, rfl, rfl⟩
  intro pr fuel p t p' hne h hcontra
  obtain ⟨k, hk, hmem⟩ := (runProd_contract fuel pr p _ p' h).2.2 t rfl
  rw [hk] at hcontra
  injection hcontra with hc
  subst hc
  cases pr
  case atRule => exact hne rfl
  all_goals simp [allowedKinds] at hmem

/-- Witness for C4: the inner size-feature production applied to (w) returns
a Present node whose root is not Bogus. -/
theorem bogus_only_at_top_level_witness :
    ¬ c4WitTree.rootKind = some .CSS_BOGUS_AT_RULE :=
  bogus_only_at_top_level.1 .sizeFeatureInParens 5 ⟨c4WitToks, 0⟩ c4WitTree ⟨[], 0⟩
    (by decide) rfl

/-- Claim C5: with the cursor at an opening paren, when the token after it is
not or another opening paren the dispatcher parses a nested boolean grouping
(a ContainerQueryInParens node); for every other following token it parses a
leaf size feature (a ContainerSizeFeatureInParens node). -/
theorem paren_dispatch (fuel : Nat) (p : CssParser) (h1 : isAt p .L_PAREN = true) :
    ((nthAt p 1 .NOT_KW || nthAt p 1 .L_PAREN) = true →
      parse_any_container_query_in_parens (fuel + 1) p = parse_container_query_in_parens fuel p ∧
        ∀ t p', parse_container_query_in_parens fuel p = .ok (.present t, p') →
          t.rootKind = some .CSS_CONTAINER_QUERY_IN_PARENS) ∧
    ((nthAt p 1 .NOT_KW || nthAt p 1 .L_PAREN) = false →
      parse_any_container_query_in_parens (fuel + 1) p =
          parse_container_size_feature_in_parens fuel p ∧
        ∀ t p', parse_container_size_feature_in_parens fuel p = .ok (.present t, p') →
          t.rootKind = some .CSS_CONTAINER_SIZE_FEATURE_IN_PARENS) := by
  have hcur := isAt_true h1
  have hq : is_at_container_query_in_parens p = (nthAt p 1 .NOT_KW || nthAt p 1 .L_PAREN) := by
    simp [is_at_container_query_in_parens, h1]
  constructor
  · intro hcond
    constructor
    · simp [parse_any_container_query_in_parens, hq, hcond]
    · intro t p' h
      obtain ⟨k, hk, hmem⟩ := (runProd_contract fuel .queryInParens p _ p' h).2.2 t rfl
      simp [allowedKinds] at hmem
      subst hmem
      exact hk
  · intro hcond
    have hsty : is_at_container_style_query_in_parens p = false := by
      simp [is_at_container_style_query_in_parens, isAt, hcur]
    constructor
    · simp [parse_any_container_query_in_parens, hq, hcond, hsty,
        is_at_container_size_feature_in_parens, h1]
    · intro t p' h
      obtain ⟨k, hk, hmem⟩ := (runProd_contract fuel .sizeFeatureInParens p _ p' h).2.2 t rfl
      simp [allowedKinds] at hmem
      subst hmem
      exact hk

/-- Witness for C5: on ( ( a ) ) the dispatcher takes the grouping branch and
the produced node is a ContainerQueryInParens. -/
theorem paren_dispatch_witness :
    parse_any_container_query_in_parens 10 ⟨c5Toks, 0⟩ =
        parse_container_query_in_parens 9 ⟨c5Toks, 0⟩ ∧
      c5Tree.rootKind = some .CSS_CONTAINER_QUERY_IN_PARENS :=
  ⟨((paren_dispatch 9 ⟨c5Toks, 0⟩ rfl).1 rfl).1,
   ((paren_dispatch 9 ⟨c5Toks, 0⟩ rfl).1 rfl).2 c5Tree ⟨[], 0⟩ rfl⟩

/-- Claim C6 counterexample: on container (a) and (b) or (c) { } the parse
does not consume the whole condition with no Bogus node and no diagnostic —
the run ends with a diagnostic recorded, unconsumed tokens, and a Bogus
root. -/
theorem mixed_and_or_counterexample :
    ¬ (resultDiags (parse_container_at_rule 40 ⟨c6Toks, 0⟩) = some 0 ∧
        resultRest (parse_container_at_rule 40 ⟨c6Toks, 0⟩) = some [] ∧
        ¬ resultRoot (parse_container_at_rule 40 ⟨c6Toks, 0⟩) = some .CSS_BOGUS_AT_RULE) := by
  decide

/-- Claim C6 amended: mixing and and or without parentheses is not folded
further: on container (a) and (b) or (c) { } the condition stops after the
and chain (a) and (b), the tokens or (c) { } are left unconsumed, the block
parse therefore fails, and the at-rule becomes a BogusAtRule with one
diagnostic. -/
theorem mixed_and_or_amended :
    resultRoot (parse_container_at_rule 40 ⟨c6Toks, 0⟩) = some .CSS_BOGUS_AT_RULE ∧
      resultDiags (parse_container_at_rule 40 ⟨c6Toks, 0⟩) = some 1 ∧
      resultRest (parse_container_at_rule 40 ⟨c6Toks, 0⟩) = some c6Rest ∧
      resultTree (parse_container_at_rule 40 ⟨c6Toks, 0⟩) = some c6Tree :=
  ⟨rfl, rfl, rfl, rfl⟩

/-- Claim C7 counterexample: on the homogeneous chain (a) and (b) and (c) the
size-feature grammar does not left-fold — the children of the root AndQuery
are operand, combinator token, nested AndQuery, so the previously built
combinator node is the last child, not the first — and the style grammar
produces exactly the same nesting shape, not a structurally different one. -/
theorem fold_shape_counterexample :
    (resultTree (parse_any_container_query 40 ⟨c7Toks, 0⟩)).map Tree.childKinds =
        some [some .CSS_CONTAINER_SIZE_FEATURE_IN_PARENS, none,
          some .CSS_CONTAINER_AND_QUERY] ∧
      (resultTree (parse_any_container_query 40 ⟨c7Toks, 0⟩)).map Tree.toShape =
        (resultTree (parse_any_container_style_combinable_query 40 ⟨c7Toks, 0⟩)).map
          Tree.toShape :=
  ⟨rfl, rfl⟩

/-- Claim C7 amended: both combinator grammars precede only the operand
parsed immediately before the combinator token and recurse for the tail, so a
homogeneous chain of three or more operands is right-nested in both grammars:
each successive AndQuery (respectively StyleAndQuery) node is the last child
of the previous one, and the two grammars yield the same tree shape. -/
theorem fold_shape_amended :
    resultRoot (parse_any_container_query 40 ⟨c7Toks, 0⟩) = some .CSS_CONTAINER_AND_QUERY ∧
      ((resultTree (parse_any_container_query 40 ⟨c7Toks, 0⟩)).bind
          (Tree.child · 2)).map Tree.childKinds =
        some [some .CSS_CONTAINER_SIZE_FEATURE_IN_PARENS, none,
          some .CSS_CONTAINER_SIZE_FEATURE_IN_PARENS] ∧
      (resultTree (parse_any_container_style_combinable_query 40 ⟨c7Toks, 0⟩)).map
          Tree.childKinds =
        some [some .CSS_CONTAINER_STYLE_IN_PARENS, none,
          some .CSS_CONTAINER_STYLE_AND_QUERY] ∧
      ((resultTree (parse_any_container_style_combinable_query 40 ⟨c7Toks, 0⟩)).bind
          (Tree.child · 2)).map Tree.childKinds =
        some [some .CSS_CONTAINER_STYLE_IN_PARENS, none,
          some .CSS_CONTAINER_STYLE_IN_PARENS] :=
  ⟨rfl, rfl, rfl, rfl⟩

/-- Claim C8 counterexample: the condition of container not (style(color:
red)) is not a ContainerNotQuery wrapping a ContainerQueryInParens — the
operand under the not query is not a ContainerQueryInParens node. -/
theorem not_style_counterexample :
    ¬ ((resultTree (parse_any_container_query 40 ⟨c8Toks, 0⟩)).map Tree.childKinds =
        some [none, some .CSS_CONTAINER_QUERY_IN_PARENS]) := by
  decide

/-- Claim C8 amended: container not (style(color: red)) parses to a
ContainerNotQuery wrapping a ContainerSizeFeatureInParens — the grouping
reading needs not or a second paren after the opening paren, so (style...) is
read as a size feature; without the outer parenthesis, container not
style(color: red) does wrap a ContainerStyleQueryInParens. -/
theorem not_style_amended :
    resultRoot (parse_any_container_query 40 ⟨c8Toks, 0⟩) = some .CSS_CONTAINER_NOT_QUERY ∧
      (resultTree (parse_any_container_query 40 ⟨c8Toks, 0⟩)).map Tree.childKinds =
        some [none, some .CSS_CONTAINER_SIZE_FEATURE_IN_PARENS] ∧
      resultRoot (parse_any_container_query 40 ⟨c8bToks, 0⟩) = some .CSS_CONTAINER_NOT_QUERY ∧
      (resultTree (parse_any_container_query 40 ⟨c8bToks, 0⟩)).map Tree.childKinds =
        some [none, some .CSS_CONTAINER_STYLE_QUERY_IN_PARENS] :=
  ⟨rfl, rfl, rfl, rfl⟩

/-- Claim C10: inside a style query a not token is parsed as a style not
query only when the token after it is an opening paren; when not is followed
by any other token the style-not production is Absent and the style-query
dispatcher sends the not token to the declaration branch as an identifier,
whereas the container-level not query dispatches on the not token alone. -/
theorem style_not_two_token_dispatch (fuel : Nat) (p : CssParser)
    (h1 : isAt p .NOT_KW = true) (h2 : nthAt p 1 .L_PAREN = false) :
    is_at_container_style_not_query p = false ∧
      parse_container_style_not_query (fuel + 1) p = .ok (.absent, p) ∧
      is_at_identifier p = true ∧
      parse_any_container_style_query (fuel + 1) p = .ok (parse_declaration p) ∧
      is_at_container_not_query p = true := by
  have hcur := isAt_true h1
  have hsn : is_at_container_style_not_query p = false := by
    simp [is_at_container_style_not_query, h1, h2]
  refine ⟨hsn, ?_, ?_, ?_, ?_⟩
  · simp [parse_container_style_not_query, hsn]
  · simp [is_at_identifier, hcur, identLike]
  · simp [parse_any_container_style_query, hsn, is_at_identifier, hcur, identLike]
  · simp [is_at_container_not_query, h1]

/-- Witness for C10 at the concrete stream not : — the style-not production
is Absent there, the token counts as an identifier, and the dispatcher takes
the declaration branch. -/
theorem style_not_two_token_dispatch_witness :
    is_at_container_style_not_query ⟨c10Toks, 0⟩ = false ∧
      parse_container_style_not_query 4 ⟨c10Toks, 0⟩ = .ok (.absent, ⟨c10Toks, 0⟩) ∧
      is_at_identifier ⟨c10Toks, 0⟩ = true ∧
      parse_any_container_style_query 4 ⟨c10Toks, 0⟩ = .ok (parse_declaration ⟨c10Toks, 0⟩) ∧
      is_at_container_not_query ⟨c10Toks, 0⟩ = true :=
  style_not_two_token_dispatch 3 ⟨c10Toks, 0⟩ rfl rfl

end Biome

namespace UseParseIntRadix

/-- Claim C9: for a call whose callee resolves to parseInt or Number.parseInt,
run signals MissingParameters on zero arguments, MissingRadix on exactly one
non-spread argument, and InvalidRadix when the second argument is a literal
or identifier that is not a valid radix; a numeric literal is a valid radix
exactly when its value is a non-fractional number between 2 and 36 inclusive,
any non-number literal and the identifier undefined are invalid, and every
other expression counts as valid. -/
theorem run_characterization (call : JsCallExpression) (o : String)
    (hobj : call.calleeObjectName = some o) (ho : o = "Number" ∨ o = "parseInt")
    (hmem : call.calleeMemberName = some "parseInt") :
    (call.args = [] → run call = some .MissingParameters) ∧
      (∀ e, call.args = [some (.anyJsExpression e)] → run call = some .MissingRadix) ∧
      (∀ e r rest, call.args = some (.anyJsExpression e) :: some (.anyJsExpression r) :: rest →
        is_valid_radix r = some false → run call = some .InvalidRadix) ∧
      (∀ q : ℚ, is_valid_radix (.anyJsLiteralExpression (.jsNumberLiteralExpression (some q))) =
          some true ↔ (q.den = 1 ∧ 2 ≤ q ∧ q ≤ 36)) ∧
      is_valid_radix (.anyJsLiteralExpression .otherLiteral) = some false ∧
      is_valid_radix (.jsIdentifierExpression (some "undefined")) = some false ∧
      (∀ s : String, s ≠ "undefined" → is_valid_radix (.jsIdentifierExpression (some s)) = some true) ∧
      is_valid_radix .other = some true := by
  have hrun : ∀ (l : List (Option AnyJsCallArgument)), call.args = l →
      run call = (match l with
        | [] => some State.MissingParameters
        | firstArg? :: restArgs =>
          match firstArg? with
          | none => none
          | some firstArg =>
            match firstArg with
            | .spread => none
            | .anyJsExpression _ =>
              match restArgs with
              | [] => some State.MissingRadix
              | secondArg? :: _ =>
                match secondArg? with
                | none => none
                | some secondArg =>
                  match secondArg with
                  | .spread => none
                  | .anyJsExpression radix_argument =>
                    match is_valid_radix radix_argument with
                    | none => none
                    | some valid => if valid then none else some State.InvalidRadix) := by
    intro l hl
    rcases ho with ho | ho <;> subst ho <;> simp [run, hobj, hmem, hl]
  refine ⟨?_, ?_, ?_, ?_, rfl, by simp [is_valid_radix], ?_, rfl⟩
  · intro ha
    rw [hrun [] ha]
  · intro e ha
    rw [hrun _ ha]
  · intro e r rest ha hr
    rw [hrun _ ha]
    simp [hr]
  · intro q
    simp only [is_valid_radix, is_valid_radix_value]
    by_cases hd : q.den = 1 ∧ -(2 ^ 63) ≤ q.num ∧ q.num ≤ 2 ^ 63 - 1
    · have hq : (q.num : ℚ) = q := (Rat.den_eq_one_iff q).mp hd.1
      simp only [f64_to_i64, if_pos hd, Option.some.injEq, decide_eq_true_eq]
      constructor
      · intro hb
        refine ⟨hd.1, ?_, ?_⟩
        · rw [← hq]
          exact_mod_cast hb.1
        · rw [← hq]
          exact_mod_cast hb.2
      · intro hb
        have h2 : (2 : ℚ) ≤ (q.num : ℚ) := by
          rw [hq]
          exact hb.2.1
        have h3 : (q.num : ℚ) ≤ 36 := by
          rw [hq]
          exact hb.2.2
        exact ⟨by exact_mod_cast h2, by exact_mod_cast h3⟩
    · simp only [f64_to_i64, if_neg hd]
      constructor
      · intro hc
        exact absurd hc (by simp)
      · intro hb
        exfalso
        apply hd
        have hq : (q.num : ℚ) = q := (Rat.den_eq_one_iff q).mp hb.1
        have h2 : (2 : ℚ) ≤ (q.num : ℚ) := by
          rw [hq]
          exact hb.2.1
        have h3 : (q.num : ℚ) ≤ 36 := by
          rw [hq]
          exact hb.2.2
        have h2i : (2 : ℤ) ≤ q.num := by exact_mod_cast h2
        have h3i : q.num ≤ (36 : ℤ) := by exact_mod_cast h3
        exact ⟨hb.1, by omega, by omega⟩
  · intro s hs
    simp [is_valid_radix, hs]

/-- The concrete parseInt() call with no arguments. -/
def parseIntNoArgs : JsCallExpression := ⟨some "parseInt", some "parseInt", []⟩

/-- Witness for C9: run on a parseInt call with no arguments signals
MissingParameters. -/
theorem run_characterization_witness :
    run parseIntNoArgs = some State.MissingParameters :=
  (run_characterization parseIntNoArgs "parseInt" rfl (Or.inr rfl) rfl).1 rfl

end UseParseIntRadix
